import Mathlib

set_option maxRecDepth 100000

/-!
Verification of the spaceway test-orchestration scripts.

The scripts drive external `spaceway` processes, capture their output in log
files, and extract facts from those logs with `re.search` / `re.findall` /
substring containment.  This file embeds the pure parts of those scripts:

* a backtracking regular-expression engine covering exactly the constructs the
  scripts' patterns use (literals, character classes, greedy and lazy `+` over
  a class, `?`, bounded repetition, one capture group);
* `find_in_log` / `check_log` as in the module-level helpers of
  `test-kick-member.py` (the `try/except` around the file read is modelled by
  an `Option String` file content: `none` = unreadable);
* the per-script assertion predicates, scorers, exit codes, setup control flow,
  `run_command` variants and teardown control flow.
-/

/-- Does `pre` occur at the start of `l`?  (Python `str.startswith`, used to
implement substring containment below.) -/
def startsWithCh : List Char → List Char → Bool
  | [], _ => true
  | _ :: _, [] => false
  | a :: as, b :: bs => a == b && startsWithCh as bs

/-- Python's `needle in hay` substring containment on character lists. -/
def containsSub (hay needle : List Char) : Bool :=
  startsWithCh needle hay ||
    match hay with
    | [] => false
    | _ :: t => containsSub t needle

/-- Python `str.lower()` restricted to the ASCII log text the scripts consume. -/
def lowerStr (s : List Char) : List Char :=
  s.map Char.toLower

/-- Specification-side substring predicate: `needle` occurs contiguously in
`hay`. -/
def ContainsSpec (hay needle : List Char) : Prop :=
  ∃ pre post, hay = pre ++ needle ++ post

/-- Fuel-driven helper for `countOcc`; fuel is the haystack length, so the
function computes by `rfl`/`decide`. -/
def countOccAux : Nat → List Char → List Char → Nat
  | 0, _, _ => 0
  | _ + 1, [], _ => 0
  | fuel + 1, hay@(_ :: t), needle =>
    if startsWithCh needle hay && !needle.isEmpty then
      countOccAux fuel (hay.drop needle.length) needle + 1
    else
      countOccAux fuel t needle

/-- Number of non-overlapping, leftmost occurrences of `needle` in `hay`:
`len(re.findall(needle, hay))` for a literal pattern. -/
def countOcc (hay needle : List Char) : Nat :=
  countOccAux hay.length hay needle

/-- Regular-expression abstract syntax, covering the constructs appearing in
the scripts' patterns.  `plusG`/`plusL` are greedy `+` and lazy `+?` over a
character class; `grp` is the single capture group. -/
inductive Rx where
  | eps : Rx
  | ch (c : Char) : Rx
  | cls (f : Char → Bool) : Rx
  | seq (a b : Rx) : Rx
  | alt (a b : Rx) : Rx
  | opt (a : Rx) : Rx
  | plusG (f : Char → Bool) : Rx
  | plusL (f : Char → Bool) : Rx
  | grp (a : Rx) : Rx

/-- Length of the maximal prefix of `s` whose characters satisfy `f`. -/
def classRunLen (f : Char → Bool) : List Char → Nat
  | [] => 0
  | x :: xs => if f x then classRunLen f xs + 1 else 0

/-- Suffixes reachable by a greedy `+` over class `f`: consume as many
class characters as possible first, backtracking down to one. -/
def plusGsplits (f : Char → Bool) (s : List Char) : List (List Char × Option (List Char)) :=
  (List.range (classRunLen f s)).map (fun i => (s.drop (classRunLen f s - i), none))

/-- Suffixes reachable by a lazy `+?` over class `f`: consume one character
first, extending on backtracking. -/
def plusLsplits (f : Char → Bool) (s : List Char) : List (List Char × Option (List Char)) :=
  (List.range (classRunLen f s)).map (fun i => (s.drop (i + 1), none))

/-- All ways `r` can match a prefix of `s`, in backtracking priority order.
Each result is the remaining suffix together with the capture-group text, if a
group participated in the match. -/
def runs : Rx → List Char → List (List Char × Option (List Char))
  | .eps, s => [(s, none)]
  | .ch _, [] => []
  | .ch c, x :: xs => if x == c then [(xs, none)] else []
  | .cls _, [] => []
  | .cls f, x :: xs => if f x then [(xs, none)] else []
  | .seq a b, s =>
    (runs a s).flatMap (fun p => (runs b p.1).map (fun q => (q.1, p.2 <|> q.2)))
  | .alt a b, s => runs a s ++ runs b s
  | .opt a, s => runs a s ++ [(s, none)]
  | .plusG f, s => plusGsplits f s
  | .plusL f, s => plusLsplits f s
  | .grp a, s => (runs a s).map (fun p => (p.1, some (s.take (s.length - p.1.length))))

/-- `re.search` on character lists: try each start position left to right and
return the highest-priority match at the first position that matches. -/
def searchRuns (r : Rx) : List Char → Option (List Char × Option (List Char))
  | [] => (runs r []).head?
  | x :: xs =>
    match (runs r (x :: xs)).head? with
    | some p => some p
    | none => searchRuns r xs

/-- Specification-side first-occurrence position: the least index `i` (scanning
`0, 1, …` in order) at which the pattern matches. -/
def leastMatch (r : Rx) (s : List Char) : Option Nat :=
  (List.range (s.length + 1)).find? (fun i => !(runs r (s.drop i)).isEmpty)

/-- Capture group of the highest-priority match in a result list, as
`match.group(1)` would report it (absent when no group participated). -/
def headGroup (l : List (List Char × Option (List Char))) : Option String :=
  match l with
  | (_, some g) :: _ => some (String.mk g)
  | _ => none

/-- Module-level `find_in_log(log_file, pattern)`: read the whole file, run
`re.search`, return `match.group(1)` when a match exists, else `None`; any
exception (unreadable file, no capture group) yields `None`. -/
def find_in_log (file : Option String) (r : Rx) : Option String :=
  match file with
  | none => none
  | some content =>
    match searchRuns r content.toList with
    | some (_, some g) => some (String.mk g)
    | _ => none

/-- Module-level `check_log(log_file, pattern)`: `bool(re.search(...))`, with
any exception (unreadable file) yielding `False`. -/
def check_log (file : Option String) (r : Rx) : Bool :=
  match file with
  | none => false
  | some content => (searchRuns r content.toList).isSome

/-- Character class `[0-9a-f]`. -/
def hexCls (c : Char) : Bool :=
  decide ((48 ≤ c.toNat ∧ c.toNat ≤ 57) ∨ (97 ≤ c.toNat ∧ c.toNat ≤ 102))

/-- Character class `\w` (ASCII range, which covers the log tokens). -/
def wordCls (c : Char) : Bool := c.isAlphanum || c == '_'

/-- Character class `.` (any character except newline; `re.DOTALL` is not
used by the scripts). -/
def dotCls (c : Char) : Bool := !(c == '\n')

/-- A literal string as a regular expression. -/
def litRx (s : String) : Rx := s.toList.foldr (fun c r => Rx.seq (.ch c) r) .eps

/-- Bounded repetition `a{n}`. -/
def repRx (n : Nat) (a : Rx) : Rx :=
  match n with
  | 0 => .eps
  | n + 1 => .seq a (repRx n a)

/-- Pattern `Created space: .+? \(([0-9a-f]{16})\)` (short space id). -/
def spaceCreatedPat : Rx :=
  .seq (litRx "Created space: ")
    (.seq (.plusL dotCls)
      (.seq (litRx " (") (.seq (.grp (repRx 16 (.cls hexCls))) (.ch (Char.ofNat 41)))))

/-- Pattern `Space: ([0-9a-f]{64})` (full space id). -/
def fullSpacePat : Rx := .seq (litRx "Space: ") (.grp (repRx 64 (.cls hexCls)))

/-- Pattern `Created invite code: (\w+)` (invite token). -/
def invitePat : Rx := .seq (litRx "Created invite code: ") (.grp (.plusG wordCls))

/-- Pattern `Peer ID: (\w+)` (peer identifier). -/
def peerIdPat : Rx := .seq (litRx "Peer ID: ") (.grp (.plusG wordCls))

/-- Pattern `User ID: ([0-9a-f]{64})` (user identifier). -/
def userIdPat : Rx := .seq (litRx "User ID: ") (.grp (repRx 64 (.cls hexCls)))

/-- The decrypt-marker literal `Decrypted MLS message`. -/
def decryptMarker : List Char := "Decrypted MLS message".toList

/-- Decrypt-marker count of a log: `len(re.findall(r'Decrypted MLS message', content))`. -/
def decryptCount (log : List Char) : Nat := countOcc log decryptMarker

/-- The text checked for the post-kick message (`'After kick' in log`). -/
def afterKickTxt : List Char := "After kick".toList

/-- Literal `Successfully removed user`. -/
def removedUserTxt : List Char := "Successfully removed user".toList

/-- Literal `MLS keys rotated`. -/
def keysRotatedTxt : List Char := "MLS keys rotated".toList

/-- Literal `removed member can't decrypt` (apostrophe built explicitly). -/
def cantDecryptTxt : List Char :=
  "removed member can".toList ++ [Char.ofNat 39] ++ "t decrypt".toList

/-- Modelled from the spec table in section 6: the removal-confirmation fact is
recognized when the buffer contains `Successfully removed user`, or
`MLS keys rotated`, or — case-insensitively — `removed member can't decrypt`. -/
def removalConfirmedSpec (log : List Char) : Bool :=
  containsSub log removedUserTxt || containsSub log keysRotatedTxt ||
    containsSub (lowerStr log) cantDecryptTxt

/-- One engine process as the scripts see it: whether it has already exited,
and the lines written to its stdin so far. -/
structure ClientProc where
  exited : Bool
  stdinBuf : List String
deriving DecidableEq

/-- `proc.stdin.write(line)` followed by `flush`: raises `BrokenPipeError`
when the backing process has already exited, otherwise appends the line. -/
def stdinWrite (p : ClientProc) (line : String) : Except String ClientProc :=
  if p.exited then .error "BrokenPipeError"
  else .ok { p with stdinBuf := p.stdinBuf ++ [line] }

namespace KickMember

/-- `run_command` of `test-kick-member.py` (also `test-bidirectional.py`,
`test-three-members-kick.py`, `test-three-members.py`, `test-space-modes.py`):
an unguarded `stdin.write(cmd + '\n')`, so a write against an exited process
propagates the exception to the caller. -/
def run_command (p : ClientProc) (cmd : String) : Except String ClientProc :=
  stdinWrite p (cmd ++ "\n")

/-- The identifiers the setup phase carries into the rest of the scenario. -/
structure SetupIds where
  space_id : String
  full_space_id : Option String
  invite : Option String
  peer_id : Option String
  bob_id : Option String
deriving DecidableEq

/-- The setup phase of `test-kick-member.py` lines 108–131: each extraction
runs against the log snapshot current at that step; only the space-id
extraction is checked (`if not space_id: return 1`), every other extraction
result is carried along even when absent. -/
def setupPhase (l1 l2 l3 l4 l5 : Option String) : Except Unit SetupIds :=
  match find_in_log l1 spaceCreatedPat with
  | none => .error ()
  | some sid =>
    .ok ⟨sid, find_in_log l2 fullSpacePat, find_in_log l3 invitePat,
      find_in_log l4 peerIdPat, find_in_log l5 userIdPat⟩

/-- Test 4 of `test-kick-member.py` line 238: the kick-succeeded assertion. -/
def kickConfirm (log : List Char) : Bool :=
  containsSub log removedUserTxt || containsSub log keysRotatedTxt ||
    containsSub (lowerStr log) cantDecryptTxt

/-- Test 5 of `test-kick-member.py` line 250: passes iff Bob's log does not
contain `After kick`. -/
def test5 (bobLog : List Char) : Bool := !(containsSub bobLog afterKickTxt)

/-- Test 6 of `test-kick-member.py` line 259: `bob_decrypts <= 4`. -/
def test6 (bobLog : List Char) : Bool := decide (decryptCount bobLog ≤ 4)

/-- Verdict-to-exit-code mapping of `test-kick-member.py` lines 267–278:
`0` at `6/6`, `0` at the partial threshold `passed >= 4`, else `1`. -/
def exitCode (passed : Nat) : Nat :=
  if passed = 6 then 0 else if 4 ≤ passed then 0 else 1

/-- Whole-scenario exit status: `1` on the fatal setup failure path
(line 112, `return 1`), otherwise the score-based exit code. -/
def mainExit (r : Except Unit Nat) : Nat :=
  match r with
  | .error () => 1
  | .ok passed => exitCode passed

end KickMember

namespace ThreeKick

/-- Test 6 of `test-three-members-kick.py` line 296: passes iff Bob's log
does not contain `After kick`. -/
def test6 (bobLog : List Char) : Bool := !(containsSub bobLog afterKickTxt)

/-- Test 7 of `test-three-members-kick.py` line 303: passes iff Charlie's log
contains `After kick`. -/
def test7 (charlieLog : List Char) : Bool := containsSub charlieLog afterKickTxt

/-- Test 8 of `test-three-members-kick.py` line 310:
`bob_decrypts <= 5 and charlie_decrypts >= 4` on the whole-run counts. -/
def test8 (bobLog charlieLog : List Char) : Bool :=
  decide (decryptCount bobLog ≤ 5) && decide (4 ≤ decryptCount charlieLog)

/-- Test 5 of `test-three-members-kick.py` line 289: the kick-succeeded
assertion (same three disjuncts as `test-kick-member.py`). -/
def kickConfirm (log : List Char) : Bool :=
  containsSub log removedUserTxt || containsSub log keysRotatedTxt ||
    containsSub (lowerStr log) cantDecryptTxt

/-- Exit-code mapping of `test-three-members-kick.py` lines 318–330:
`0` at `8/8`, `0` at the partial threshold `passed >= 6`, else `1`. -/
def exitCode (passed : Nat) : Nat :=
  if passed = 8 then 0 else if 6 ≤ passed then 0 else 1

end ThreeKick

namespace FourKick

/-- Test 6 of `test-four-members-kick.py` line 322: the kick-succeeded
assertion checks only the two literal confirmations. -/
def kickConfirm (log : List Char) : Bool :=
  containsSub log removedUserTxt || containsSub log keysRotatedTxt

end FourKick

namespace ChannelKick

/-- Test 9 of `test-channel-kick.py` line 423: the kick-succeeded assertion
checks only the two literal confirmations. -/
def kickConfirm (log : List Char) : Bool :=
  containsSub log removedUserTxt || containsSub log keysRotatedTxt

end ChannelKick

namespace Permissions

/-- `run_command` of `src/tests/scripts/test-permissions.py` lines 27–37: the
write is wrapped in `try/except`; on `BrokenPipeError` (or any other error) a
warning is printed and the function returns normally.  Result: the process
state (unchanged on failure) and whether a communication failure was logged. -/
def run_command (p : ClientProc) (cmd : String) : ClientProc × Bool :=
  match stdinWrite p (cmd ++ "\n") with
  | .ok p2 => (p2, false)
  | .error _ => (p, true)

end Permissions

namespace Bidirectional

/-- Exit-code mapping of `test-bidirectional.py` lines 231–237: `0` only at
the full score `5/5`, else `1`. -/
def exitCode (passed : Nat) : Nat :=
  if passed = 5 then 0 else 1

end Bidirectional

namespace E2EE

/-- Process exit status of `test-e2ee.py`: `main()` prints a success or
failure banner depending on the final flag but never returns a value, and the
`__main__` guard calls `main()` without `sys.exit`, so the interpreter exits
with status `0` on every run. -/
def mainExit (_success : Bool) : Nat := 0

end E2EE

/-- One child process during teardown: does its graceful termination complete
within the `wait(timeout=3)` window? -/
structure ChildProc where
  exitsInTime : Bool
deriving DecidableEq

/-- Is `proc.wait(timeout=3)` reached for the process at index `i`?  The
`finally` block of `test-kick-member.py` lines 280–288 (and the three- and
four-member variants) runs all waits sequentially inside a single `try`, so
the wait for process `i` is only reached when every earlier wait returned
within its timeout. -/
def waitAttempted (ps : List ChildProc) (i : Nat) : Bool :=
  (ps.take i).all (·.exitsInTime)

/-- Does the shared `except` branch run, force-killing every process?  It runs
exactly when some sequential wait raises `TimeoutExpired`, i.e. when not every
process exits within its window. -/
def killAllIssued (ps : List ChildProc) : Bool :=
  !(ps.all (·.exitsInTime))

/-- Observable trace of the `finally` teardown block: how many `terminate()`
requests were issued, which processes had their `wait` reached, and whether
the force-kill branch ran. -/
structure TeardownTrace where
  termRequested : Nat
  waitReached : List Bool
  killedAll : Bool
deriving DecidableEq

/-- The teardown block itself: `terminate()` on every process, then the
sequential waits under one `try`, then (on any timeout) `kill()` on every
process. -/
def teardownAll (ps : List ChildProc) : TeardownTrace :=
  ⟨ps.length, (List.range ps.length).map (waitAttempted ps), killAllIssued ps⟩

/-- A whole scenario run: the body computes an exit status (normally or via
the early `return 1` paths), and the `finally` block always runs teardown;
nothing teardown does (including a `TimeoutExpired`) alters the exit status. -/
def runScenario (bodyExit : Nat) (ps : List ChildProc) : Nat × TeardownTrace :=
  (bodyExit, teardownAll ps)

namespace Automation

/-- One `TestRunner.test` call of `test-automation.py` lines 104–117 acting on
the `(tests_passed, tests_total)` counters: the check outcome is `.ok b` when
`check_fn()` returned `b` and `.error e` when it raised; the total always
increments, the passed count increments only on `.ok true`, and no outcome
stops the run. -/
def testStep (acc : Nat × Nat) (outcome : Except String Bool) : Nat × Nat :=
  ((match outcome with
    | .ok true => acc.1 + 1
    | _ => acc.1), acc.2 + 1)

/-- Running a list of assertion outcomes in order from fresh counters. -/
def runTests (outcomes : List (Except String Bool)) : Nat × Nat :=
  outcomes.foldl testStep (0, 0)

end Automation

/-- `1` for a passing assertion, `0` otherwise. -/
def boolNat (b : Bool) : Nat := if b then 1 else 0

/-- The assertion phase of `test-kick-member.py` lines 213–265:
`tests_total = 6` is fixed up front and each of the six `if` blocks adds at
most one to `tests_passed`; every block executes regardless of the earlier
outcomes.  Result is `(tests_passed, tests_total)`. -/
def kickAssertionScore (t1 t2 t3 t4 t5 t6 : Bool) : Nat × Nat :=
  (boolNat t1 + boolNat t2 + boolNat t3 + boolNat t4 + boolNat t5 + boolNat t6, 6)

/-- A file system of log files, mapping a path to its readable content
(`none` = unreadable). -/
structure LogFS where
  files : String → Option String

/-- `find_in_log` as the scripts actually call it: open the named log file in
read mode and search its current content.  The call only reads, so the file
system comes back unchanged. -/
def find_in_log_fs (fs : LogFS) (path : String) (r : Rx) : Option String × LogFS :=
  (find_in_log (fs.files path) r, fs)

/-- `check_log` as the scripts actually call it, likewise read-only. -/
def check_log_fs (fs : LogFS) (path : String) (r : Rx) : Bool × LogFS :=
  (check_log (fs.files path) r, fs)

theorem startsWithCh_iff (pre l : List Char) :
    startsWithCh pre l = true ↔ ∃ t, l = pre ++ t := by
  induction pre generalizing l with
  | nil => simp [startsWithCh]
  | cons a as ih =>
    cases l with
    | nil => simp [startsWithCh]
    | cons b bs =>
      simp only [startsWithCh, Bool.and_eq_true, beq_iff_eq, ih, List.cons_append,
        List.cons.injEq]
      constructor
      · rintro ⟨rfl, t, rfl⟩; exact ⟨t, rfl, rfl⟩
      · rintro ⟨t, rfl, rfl⟩; exact ⟨rfl, t, rfl⟩

theorem containsSub_iff (hay needle : List Char) :
    containsSub hay needle = true ↔ ContainsSpec hay needle := by
  induction hay with
  | nil =>
    simp only [containsSub, startsWithCh_iff, Bool.or_eq_true, ContainsSpec]
    constructor
    · rintro (⟨t, ht⟩ | h)
      · exact ⟨[], t, ht⟩
      · cases h
    · rintro ⟨pre, post, h⟩
      left
      cases pre with
      | nil => exact ⟨post, by simpa using h⟩
      | cons p ps => simp at h
  | cons x t ih =>
    simp only [containsSub, startsWithCh_iff, Bool.or_eq_true, ih, ContainsSpec]
    constructor
    · rintro (⟨s, hs⟩ | ⟨pre, post, h⟩)
      · exact ⟨[], s, by simpa using hs⟩
      · exact ⟨x :: pre, post, by simp [h]⟩
    · rintro ⟨pre, post, h⟩
      cases pre with
      | nil => exact Or.inl ⟨post, by simpa using h⟩
      | cons p ps =>
        right
        simp only [List.cons_append] at h
        cases h
        exact ⟨ps, post, rfl⟩

theorem searchRuns_eq_leastMatch (r : Rx) (s : List Char) :
    searchRuns r s =
      match leastMatch r s with
      | some i => (runs r (s.drop i)).head?
      | none => none := by
  induction s with
  | nil =>
    simp only [searchRuns, leastMatch, List.length_nil, List.drop_nil]
    rw [show List.range 1 = [0] from rfl]
    cases h : runs r [] with
    | nil => simp [h, List.find?_cons]
    | cons a t => simp [h, List.find?_cons]
  | cons x xs ih =>
    simp only [searchRuns, leastMatch, List.length_cons]
    rw [List.range_succ_eq_map]
    cases h : runs r (x :: xs) with
    | cons a t => simp [List.find?_cons, List.drop, h]
    | nil =>
      have hfind :
          (List.find? (fun i => !(runs r ((x :: xs).drop i)).isEmpty)
            (0 :: (List.range (xs.length + 1)).map Nat.succ)) =
          Option.map Nat.succ (leastMatch r xs) := by
        rw [List.find?_cons]
        simp only [List.drop_zero, h, List.isEmpty_nil, Bool.not_true]
        rw [List.find?_map]
        congr 1
      rw [hfind, ih]
      cases hl : leastMatch r xs with
      | none => simp
      | some i => simp [List.drop_succ_cons]

theorem range_find?_least (p : Nat → Bool) :
    ∀ n i, (List.range n).find? p = some i → ∀ j, j < i → p j = false := by
  intro n
  induction n with
  | zero => intro i h; simp [List.find?] at h
  | succ n ih =>
    intro i h j hj
    rw [List.range_succ, List.find?_append] at h
    cases hfst : (List.range n).find? p with
    | some k =>
      rw [hfst] at h
      have hk : k = i := by simpa [Option.or] using h
      exact ih i (hk ▸ hfst) j hj
    | none =>
      rw [hfst] at h
      simp only [Option.none_or] at h
      have hi : i = n := by
        by_cases hp : p n = true
        · simp [List.find?_cons, hp] at h
          omega
        · simp only [Bool.not_eq_true] at hp
          simp [List.find?_cons, hp] at h
      have hjn : j < n := hi ▸ hj
      have hjmem : j ∈ List.range n := List.mem_range.mpr hjn
      have := List.find?_eq_none.mp hfst j hjmem
      simpa using this

theorem headGroup_head? (l : List (List Char × Option (List Char))) :
    (match l.head? with
     | some (_, some g) => some (String.mk g)
     | _ => none) = headGroup l := by
  cases l with
  | nil => rfl
  | cons a t =>
    obtain ⟨s, og⟩ := a
    cases og <;> rfl

/-- C5: for every buffer content and pattern, `find_in_log` returns the
capture-group text of the match at the least position where the pattern
matches (`leastMatch`, literally the first index `0, 1, …` at which a match
exists), and absent when no position matches; moreover the position returned
by `leastMatch` really is the first occurrence: the pattern matches there and
at no earlier position.  First occurrence wins even when later matches
exist. -/
theorem extractOne_first (content : String) (r : Rx) :
    (find_in_log (some content) r =
      match leastMatch r content.toList with
      | some i => headGroup (runs r (content.toList.drop i))
      | none => none) ∧
    (∀ i, leastMatch r content.toList = some i →
      runs r (content.toList.drop i) ≠ [] ∧
        ∀ j, j < i → runs r (content.toList.drop j) = []) := by
  constructor
  · show (match searchRuns r content.toList with
      | some (_, some g) => some (String.mk g)
      | _ => none) = _
    rw [searchRuns_eq_leastMatch]
    cases hl : leastMatch r content.toList with
    | none => rfl
    | some i => exact headGroup_head? _
  · intro i hi
    constructor
    · have hsat := List.find?_some hi
      intro hempty
      rw [hempty] at hsat
      simp at hsat
    · intro j hj
      have h0 := range_find?_least _ _ _ hi j hj
      cases hrj : runs r (content.toList.drop j) with
      | nil => rfl
      | cons a t =>
        rw [hrj] at h0
        simp at h0

/-- A 64-hex-digit token as it appears in `User ID:` lines. -/
def hex64Str : String :=
  "0123456789abcdef0123456789abcdef0123456789abcdef0123456789abcdef"

/-- A log whose first `User ID:` occurrence starts at index 1, followed by a
second occurrence; used to exercise first-match extraction. -/
def c5Content : String :=
  "xUser ID: " ++ hex64Str ++ " User ID: ffffffffffffffffffffffffffffffffffffffffffffffffffffffffffffffff"

/-- Witness for `extractOne_first`: on `c5Content` the pattern first matches
at index 1, extraction returns the first token (not the later one), and no
match exists at index 0. -/
theorem extractOne_first_w :
    find_in_log (some c5Content) userIdPat = some hex64Str ∧
    runs userIdPat (c5Content.toList.drop 0) = [] := by
  have h := extractOne_first c5Content userIdPat
  constructor
  · rw [h.1]
    rfl
  · exact (h.2 1 (by rfl)).2 0 (by decide)

/-- C6: extraction is pure and idempotent with respect to the log snapshot:
a `find_in_log`/`check_log` call leaves the file system unchanged, and the
immediate second call on the state left by the first yields the same result. -/
theorem extraction_idempotent (fs : LogFS) (path : String) (r : Rx) :
    (find_in_log_fs fs path r).2 = fs ∧
    (find_in_log_fs (find_in_log_fs fs path r).2 path r).1 =
      (find_in_log_fs fs path r).1 ∧
    (check_log_fs fs path r).2 = fs ∧
    (check_log_fs (check_log_fs fs path r).2 path r).1 =
      (check_log_fs fs path r).1 :=
  ⟨rfl, rfl, rfl, rfl⟩

/-- C9: an unreadable log file is indistinguishable from pattern absence at
the module-level interface: for every pattern, `find_in_log` returns `None`
and `check_log` returns `False` instead of raising. -/
theorem unreadable_is_absent (r : Rx) :
    find_in_log none r = none ∧ check_log none r = false :=
  ⟨rfl, rfl⟩

/-- C2 counterexample: in `test-kick-member.py` the write in `run_command` is
unguarded, so a command sent to an already-exited process raises
(`BrokenPipeError`) to the caller, contradicting the claim that the send
operation never raises. -/
theorem send_claim_cex :
    (ClientProc.mk true []).exited = true ∧
    KickMember.run_command ⟨true, []⟩ "context" = Except.error "BrokenPipeError" :=
  ⟨rfl, rfl⟩

/-- C2 amended: a write against an exited process never raises only in
`test-permissions.py`, whose `run_command` catches the error, records it and
continues; in `test-kick-member.py` (and the other kick scripts) the same
write propagates the exception. -/
theorem send_behavior_amended (p : ClientProc) (cmd : String) (h : p.exited = true) :
    KickMember.run_command p cmd = Except.error "BrokenPipeError" ∧
    Permissions.run_command p cmd = (p, true) := by
  unfold KickMember.run_command Permissions.run_command stdinWrite
  simp [h]

theorem send_behavior_amended_w :
    KickMember.run_command ⟨true, ["a"]⟩ "x" = Except.error "BrokenPipeError" ∧
    Permissions.run_command ⟨true, ["a"]⟩ "x" = (⟨true, ["a"]⟩, true) :=
  send_behavior_amended ⟨true, ["a"]⟩ "x" rfl

/-- The concrete `Created space:` log line used below. -/
def spaceLineStr : String := "Created space: kick-test (0123456789abcdef)"

/-- C3 counterexample: with the space id present but the invite-token,
peer-id and user-id extractions all absent (empty logs), the setup phase does
NOT abort: it returns successfully and the scenario continues into the action
and assertion phases, contradicting the claim that any of the four absences
aborts the run. -/
theorem setup_claim_cex :
    find_in_log (some "") invitePat = none ∧
    find_in_log (some "") peerIdPat = none ∧
    find_in_log (some "") userIdPat = none ∧
    KickMember.setupPhase (some spaceLineStr) (some "") (some "") (some "") (some "") =
      Except.ok ⟨"0123456789abcdef", none, none, none, none⟩ :=
  ⟨rfl, rfl, rfl, rfl⟩

/-- C3 amended: only the space-id extraction is load-bearing: its absence
aborts the scenario with a setup failure, while absent full-space-id, invite,
peer-id and user-id extractions are carried as `None` and the scenario
continues. -/
theorem setup_abort_amended (l1 l2 l3 l4 l5 : Option String) :
    (find_in_log l1 spaceCreatedPat = none →
      KickMember.setupPhase l1 l2 l3 l4 l5 = Except.error ()) ∧
    (∀ sid, find_in_log l1 spaceCreatedPat = some sid →
      KickMember.setupPhase l1 l2 l3 l4 l5 =
        Except.ok ⟨sid, find_in_log l2 fullSpacePat, find_in_log l3 invitePat,
          find_in_log l4 peerIdPat, find_in_log l5 userIdPat⟩) := by
  unfold KickMember.setupPhase
  constructor
  · intro h
    rw [h]
  · intro sid h
    rw [h]

theorem setup_abort_amended_w :
    KickMember.setupPhase none (some "") (some "") (some "") (some "") = Except.error () ∧
    KickMember.setupPhase (some spaceLineStr) none none none none =
      Except.ok ⟨"0123456789abcdef", none, none, none, none⟩ := by
  refine ⟨(setup_abort_amended none (some "") (some "") (some "") (some "")).1 rfl, ?_⟩
  exact (setup_abort_amended (some spaceLineStr) none none none none).2
    "0123456789abcdef" (by rfl)

/-- C4 counterexample: `test-e2ee.py` exits with status `0` even when its
success condition is false (its `main` never feeds a status to `sys.exit`),
contradicting the claim that every scenario run exits `1` below threshold. -/
theorem exit_code_claim_cex :
    E2EE.mainExit false = 0 ∧ E2EE.mainExit false ≠ 1 :=
  ⟨rfl, by decide⟩

/-- C4 amended: in the scenarios that return a status — kick (threshold 4 of
6), three-member kick (6 of 8), bidirectional (full 5 of 5) — the exit code
is `0` exactly at or above the scenario's threshold and `1` below it or on
fatal setup failure; `test-e2ee.py` however always exits `0`. -/
theorem exit_codes_amended (p : Nat) (b : Bool) :
    KickMember.exitCode p = (if 4 ≤ p then 0 else 1) ∧
    ThreeKick.exitCode p = (if 6 ≤ p then 0 else 1) ∧
    Bidirectional.exitCode p = (if p = 5 then 0 else 1) ∧
    KickMember.mainExit (Except.error ()) = 1 ∧
    KickMember.mainExit (Except.ok p) = KickMember.exitCode p ∧
    E2EE.mainExit b = 0 := by
  refine ⟨?_, ?_, rfl, rfl, rfl, rfl⟩
  · unfold KickMember.exitCode
    split_ifs <;> omega
  · unfold ThreeKick.exitCode
    split_ifs <;> omega

/-- C7 amended: the two-member and three-member kick scripts recognize the
removal confirmation exactly as the spec's three-form table states, but the
four-member and channel kick scripts check only the two literal forms: the
case-insensitive `removed member can't decrypt` form is not consulted there. -/
theorem removal_confirmation_amended (log : List Char) :
    KickMember.kickConfirm log = removalConfirmedSpec log ∧
    ThreeKick.kickConfirm log = removalConfirmedSpec log ∧
    ChannelKick.kickConfirm log = FourKick.kickConfirm log ∧
    removalConfirmedSpec log =
      (FourKick.kickConfirm log || containsSub (lowerStr log) cantDecryptTxt) := by
  refine ⟨rfl, rfl, rfl, ?_⟩
  simp [removalConfirmedSpec, FourKick.kickConfirm, Bool.or_assoc]

/-- C7 counterexample: a buffer consisting of the canonical third form
`removed member can't decrypt` satisfies the spec's removal-confirmation
predicate (and the two- and three-member scripts' assertion), but the
four-member and channel kick assertions reject it. -/
theorem removal_confirmation_cex :
    FourKick.kickConfirm cantDecryptTxt = false ∧
    ChannelKick.kickConfirm cantDecryptTxt = false ∧
    removalConfirmedSpec cantDecryptTxt = true ∧
    KickMember.kickConfirm cantDecryptTxt = true := by
  decide

/-- C8 counterexample: with two processes where the first does not exit
within its wait window and the second does, the second process never has its
`wait` reached (`waitReached = [true, false]`) and the shared `except` branch
force-kills every process — so a process that exits gracefully in time is
killed without ever being waited on, contradicting the per-process
wait-then-kill claim. -/
theorem teardown_claim_cex :
    (ChildProc.mk true).exitsInTime = true ∧
    (teardownAll [⟨false⟩, ⟨true⟩]).waitReached = [true, false] ∧
    (teardownAll [⟨false⟩, ⟨true⟩]).killedAll = true := by
  decide

/-- C8 amended: teardown runs on every exit path and never alters the
scenario's exit status; every process receives a graceful termination
request; the sequential waits all complete only when every process exits
within its window, in which case no force-kill happens — but on any wait
timeout the remaining waits are skipped and all processes are force-killed
immediately. -/
theorem teardown_amended (ps : List ChildProc) (bodyExit : Nat) :
    (runScenario bodyExit ps).1 = bodyExit ∧
    (runScenario bodyExit ps).2 = teardownAll ps ∧
    (teardownAll ps).termRequested = ps.length ∧
    ((teardownAll ps).killedAll = false ↔ ps.all (·.exitsInTime) = true) ∧
    (ps.all (·.exitsInTime) = true → ∀ i, waitAttempted ps i = true) := by
  refine ⟨rfl, rfl, rfl, ?_, ?_⟩
  · simp [teardownAll, killAllIssued]
  · intro h i
    unfold waitAttempted
    exact List.all_eq_true.mpr fun x hx =>
      List.all_eq_true.mp h x (List.take_subset _ _ hx)

theorem teardown_amended_w :
    (runScenario 0 [ChildProc.mk true, ChildProc.mk true]).1 = 0 ∧
    waitAttempted [ChildProc.mk true, ChildProc.mk true] 1 = true :=
  ⟨(teardown_amended [⟨true⟩, ⟨true⟩] 0).1,
   (teardown_amended [⟨true⟩, ⟨true⟩] 0).2.2.2.2 rfl 1⟩

theorem runTests_aux (l : List (Except String Bool)) :
    ∀ a b : Nat, a ≤ b →
      (l.foldl Automation.testStep (a, b)).1 ≤ (l.foldl Automation.testStep (a, b)).2 ∧
      (l.foldl Automation.testStep (a, b)).2 = b + l.length := by
  induction l with
  | nil =>
    intro a b h
    simpa using h
  | cons r t ih =>
    intro a b h
    rw [List.foldl_cons]
    have hle : (Automation.testStep (a, b) r).1 ≤ b + 1 := by
      cases r with
      | error e =>
        show a ≤ b + 1
        omega
      | ok v =>
        cases v
        · show a ≤ b + 1
          omega
        · show a + 1 ≤ b + 1
          omega
    have hsnd : (Automation.testStep (a, b) r).2 = b + 1 := by
      cases r <;> rfl
    have hrec := ih (Automation.testStep (a, b) r).1 (Automation.testStep (a, b) r).2
      (hsnd ▸ hle)
    simp only [Prod.mk.eta] at hrec
    refine ⟨by simpa using hrec.1, ?_⟩
    have := hrec.2
    simp only [hsnd] at this
    simp only [this, List.length_cons]
    omega

/-- C10: the assertion scorer keeps `0 ≤ passed ≤ total`: running a list of
assertion outcomes evaluates each exactly once in order (the total equals the
number of outcomes and appending one more outcome performs exactly one more
step, regardless of earlier outcomes — so no outcome stops the run), each
outcome contributes at most one to the passed count, and the fixed-size
assertion phase of `test-kick-member.py` likewise scores at most `6` out of
its fixed total `6`. -/
theorem scorer_invariant (outcomes pre : List (Except String Bool))
    (r : Except String Bool) (t1 t2 t3 t4 t5 t6 : Bool) :
    (Automation.runTests outcomes).1 ≤ (Automation.runTests outcomes).2 ∧
    (Automation.runTests outcomes).2 = outcomes.length ∧
    Automation.runTests (pre ++ [r]) = Automation.testStep (Automation.runTests pre) r ∧
    (Automation.testStep (Automation.runTests pre) r).1 ≤ (Automation.runTests pre).1 + 1 ∧
    (Automation.runTests pre).1 ≤ (Automation.testStep (Automation.runTests pre) r).1 ∧
    (kickAssertionScore t1 t2 t3 t4 t5 t6).2 = 6 ∧
    (kickAssertionScore t1 t2 t3 t4 t5 t6).1 ≤ 6 := by
  have h := runTests_aux outcomes 0 0 (Nat.le_refl 0)
  refine ⟨h.1, by simpa using h.2, ?_, ?_, ?_, rfl, ?_⟩
  · unfold Automation.runTests
    rw [List.foldl_append]
    rfl
  · cases r with
    | error e => exact Nat.le_succ _
    | ok v =>
      cases v
      · exact Nat.le_succ _
      · exact Nat.le_refl _
  · cases r with
    | error e => exact Nat.le_refl _
    | ok v =>
      cases v
      · exact Nat.le_refl _
      · exact Nat.le_succ _
  · have hb : ∀ x : Bool, boolNat x ≤ 1 := by
      intro x
      cases x <;> simp [boolNat]
    have h1 := hb t1
    have h2 := hb t2
    have h3 := hb t3
    have h4 := hb t4
    have h5 := hb t5
    have h6 := hb t6
    simp only [kickAssertionScore]
    omega

/-- C1 amended: in the three-member kick scenario's assertion phase, the
assertion over B's buffer passes iff B's buffer does not contain
`After kick`, and the assertion over C's buffer passes iff C's buffer does
contain it, exactly as claimed — but the decrypt-marker assertion passes iff
B's whole-run marker count is at most `5` and C's is at least `4` (absolute
bounds on the final counts), not iff B's count did not increase after the
removal. -/
theorem three_kick_assertions (bLog cLog : List Char) :
    (ThreeKick.test6 bLog = true ↔ ¬ ContainsSpec bLog afterKickTxt) ∧
    (ThreeKick.test7 cLog = true ↔ ContainsSpec cLog afterKickTxt) ∧
    (ThreeKick.test8 bLog cLog = true ↔
      (decryptCount bLog ≤ 5 ∧ 4 ≤ decryptCount cLog)) ∧
    (KickMember.test5 bLog = true ↔ ¬ ContainsSpec bLog afterKickTxt) := by
  refine ⟨?_, containsSub_iff _ _, ?_, ?_⟩
  · unfold ThreeKick.test6
    simp [Bool.not_eq_true', ← containsSub_iff]
  · unfold ThreeKick.test8
    simp [Bool.and_eq_true, decide_eq_true_eq]
  · unfold KickMember.test5
    simp [Bool.not_eq_true', ← containsSub_iff]

/-- One decrypt-marker log line. -/
def markerLine : List Char := ("Decrypted MLS message" ++ "\n").toList

/-- Bob's log as captured at the moment of the removal: two markers. -/
def bobLogAtKick : List Char := markerLine ++ markerLine

/-- What Bob's log gains after the removal: two further markers. -/
def bobPostKickTail : List Char := markerLine ++ markerLine

/-- Bob's final log: the at-kick log plus the post-kick tail. -/
def bobLogFinal : List Char := bobLogAtKick ++ bobPostKickTail

/-- Charlie's final log: four markers followed by the post-kick message. -/
def charlieLogFinal : List Char :=
  markerLine ++ markerLine ++ markerLine ++ markerLine ++ afterKickTxt

/-- C1 counterexample: a run in which B's decrypt-marker count increases from
`2` at the removal to `4` at the end (the buffer grows only by appending), yet
the decrypt-marker assertion passes, so that assertion does not judge "the
count did not increase after the removal"; the containment assertions behave
as claimed on the same run. -/
theorem three_kick_claim_cex :
    bobLogFinal = bobLogAtKick ++ bobPostKickTail ∧
    decryptCount bobLogAtKick = 2 ∧
    decryptCount bobLogFinal = 4 ∧
    ThreeKick.test8 bobLogFinal charlieLogFinal = true ∧
    ThreeKick.test6 bobLogFinal = true ∧
    ThreeKick.test7 charlieLogFinal = true := by
  refine ⟨rfl, ?_, ?_, ?_, ?_, ?_⟩ <;> decide
